import Mathlib

/-!
Verification model of the Termi terminal copilot (Python).

Shallow embedding of the command-safety classifier (`termi/safety.py`),
the response parser (`termi/cli.py`), the heuristic fallback generator
(`termi/fallback.py`), the one-shot and plan execution flows
(`termi/cli.py`) and the history store (`termi/history.py`).

Conventions of the embedding:
* Python strings are Lean `String`s; character-level work happens on
  `List Char`.  The commands in scope are ASCII, so ASCII semantics of
  `\w`, `\s`, `str.lower`, `str.strip` are modelled.
* `re.search` is modelled by a small regular-expression engine whose
  match function returns the set of all reachable end positions, so the
  existence of a Python match coincides with non-emptiness of that set.
* Effectful code (console, subprocess, LLM call) is modelled by passing
  oracles: the raw LLM reply, the user's typed confirmation answers and
  an exit-code function for the shell, while the flow returns its result
  code together with the trace of commands actually handed to the shell.
-/

/-! ### Python character classes and string primitives -/

/-- Python `str.isspace` / regex `\s` over ASCII: space, tab, newline,
carriage return, vertical tab, form feed. -/
def pyspace (c : Char) : Bool :=
  c == ' ' || c == '\t' || c == '\n' || c == '\r' ||
  c == Char.ofNat 11 || c == Char.ofNat 12

/-- Regex `\w` (ASCII): letters, digits, underscore. -/
def isWordChar (c : Char) : Bool :=
  (('a' ≤ c && c ≤ 'z') || ('A' ≤ c && c ≤ 'Z') || ('0' ≤ c && c ≤ '9') || c == '_')

/-- Python `not s or not s.strip()`: the string is empty or whitespace only. -/
def pyBlank (s : String) : Bool := s.data.all pyspace

/-- Strip the characters satisfying `p` from both ends of a list. -/
def stripWhile (p : Char → Bool) (l : List Char) : List Char :=
  ((l.dropWhile p).reverse.dropWhile p).reverse

/-- Python `str.strip()` (default whitespace). -/
def pyStrip (s : String) : String := String.mk (stripWhile pyspace s.data)

/-- Python `str.strip("x")` for the backtick character set. -/
def pyStripBackticks (s : String) : String :=
  String.mk (stripWhile (fun c => c == '`') s.data)

/-- Does `n` occur as a contiguous sublist of the second argument? -/
def seqContains (n : List Char) : List Char → Bool
  | [] => n.isEmpty
  | c :: t => n.isPrefixOf (c :: t) || seqContains n t

/-- Python `needle in haystack` for strings. -/
def pyIn (needle hay : String) : Bool := seqContains needle.data hay.data

/-- Python `s.startswith(pre)`. -/
def strStarts (s pre : String) : Bool := pre.data.isPrefixOf s.data

/-- Split a character list at newline characters (keeping empty segments). -/
def splitNL : List Char → List (List Char)
  | [] => [[]]
  | c :: t =>
    let r := splitNL t
    if c == '\n' then [] :: r
    else
      match r with
      | h :: t2 => (c :: h) :: t2
      | [] => [[c]]

/-- Python `str.splitlines()` restricted to `\n` separators: no entry is
produced for a trailing newline, and the empty string has no lines. -/
def pySplitlines (s : String) : List String :=
  if s.data.isEmpty then []
  else
    let l := (splitNL s.data).map String.mk
    if s.data.getLast? == some '\n' then l.dropLast else l

/-- Python `"\n".join(lines)`. -/
def joinNL : List String → String
  | [] => ""
  | [l] => l
  | l :: ls => l ++ "\n" ++ joinNL ls

/-- Python `str.lower()` (ASCII). -/
def pyLower (s : String) : String := String.mk (s.data.map Char.toLower)

/-- Digit characters to the number they denote (Python `int`). -/
def digitsToNat : List Char → Nat → Nat
  | [], acc => acc
  | c :: t, acc => digitsToNat t (acc * 10 + (c.toNat - '0'.toNat))

/-- Python string `<` (lexicographic by code point), as a Bool. -/
def pyStrLt : List Char → List Char → Bool
  | [], [] => false
  | [], _ :: _ => true
  | _ :: _, [] => false
  | a :: as, b :: bs => if a < b then true else if b < a then false else pyStrLt as bs

/-! ### A regular-expression engine for the safety patterns

`CC` is a single-character matcher; starred/plus subterms in the safety
patterns only ever repeat single-character matchers, which the syntax
reflects, making the match function structurally recursive. -/

/-- Single-character regex atoms. -/
inductive CC where
  /-- a literal character -/
  | lit : Char → CC
  /-- a case-insensitive literal (used by the `re.IGNORECASE` pattern;
  the pattern characters are lowercase letters) -/
  | litCI : Char → CC
  /-- `.` : any character except newline -/
  | dot : CC
  /-- `\s` -/
  | space : CC
  /-- `[a-zA-Z]` -/
  | alphaC : CC
  /-- `[a-z]` -/
  | lowerC : CC
  deriving DecidableEq, Repr

/-- Does the atom match a character? -/
def CC.test : CC → Char → Bool
  | .lit a, c => a == c
  | .litCI a, c => c.toLower == a.toLower
  | .dot, c => c != '\n'
  | .space, c => pyspace c
  | .alphaC, c => (('a' ≤ c && c ≤ 'z') || ('A' ≤ c && c ≤ 'Z'))
  | .lowerC, c => ('a' ≤ c && c ≤ 'z')

/-- Regular expressions in the shape used by the safety patterns. -/
inductive RE where
  | eps : RE
  | cc : CC → RE
  | cat : RE → RE → RE
  | alt : RE → RE → RE
  /-- `x*` over a single-character atom -/
  | star : CC → RE
  /-- `x+` over a single-character atom -/
  | plus : CC → RE
  | opt : RE → RE
  /-- `\b` word boundary -/
  | wb : RE
  /-- `$` end of string (or just before a final newline), Python semantics -/
  | eos : RE
  deriving DecidableEq, Repr

/-- Is the character at position `i` a word character? (`false` past the end.) -/
def isWordAt (s : List Char) (i : Nat) : Bool :=
  match s.get? i with
  | some c => isWordChar c
  | none => false

/-- Word boundary at position `i` (between `i-1` and `i`). -/
def wbAt (s : List Char) (i : Nat) : Bool :=
  match i with
  | 0 => isWordAt s 0
  | j + 1 => isWordAt s j != isWordAt s (j + 1)

/-- Python `$` (no MULTILINE): end of string or directly before a final newline. -/
def eosAt (s : List Char) (i : Nat) : Bool :=
  i == s.length || (i + 1 == s.length && s.get? i == some '\n')

/-- Length of the maximal run of characters matching `c`. -/
def starRun (c : CC) : List Char → Nat
  | [] => 0
  | x :: xs => if c.test x then starRun c xs + 1 else 0

/-- All end positions of a match of `p` in `s` starting at position `i`.
A Python `re.search` match starting at `i` exists iff this is non-empty. -/
def mmatch : RE → List Char → Nat → List Nat
  | .eps, _, i => [i]
  | .cc c, s, i =>
    match s.get? i with
    | some x => if c.test x then [i + 1] else []
    | none => []
  | .cat a b, s, i => (mmatch a s i).flatMap (fun m => mmatch b s m)
  | .alt a b, s, i => mmatch a s i ++ mmatch b s i
  | .star c, s, i => (List.range (starRun c (s.drop i) + 1)).map (fun k => i + k)
  | .plus c, s, i =>
    match s.get? i with
    | some x =>
      if c.test x then (List.range (starRun c (s.drop (i + 1)) + 1)).map (fun k => i + 1 + k)
      else []
    | none => []
  | .opt a, s, i => i :: mmatch a s i
  | .wb, s, i => if wbAt s i then [i] else []
  | .eos, s, i => if eosAt s i then [i] else []

/-- `re.search(p, s) is not None`: some start position admits a match. -/
def research (p : RE) (s : List Char) : Bool :=
  (List.range (s.length + 1)).any (fun i => !(mmatch p s i).isEmpty)

/-- Concatenation of a list of regexes. -/
def cats (l : List RE) : RE := l.foldr RE.cat RE.eps

/-- A literal string as a regex. -/
def rlit (s : String) : RE := cats (s.data.map (fun c => RE.cc (CC.lit c)))

/-- A case-insensitive literal string as a regex. -/
def rlitCI (s : String) : RE := cats (s.data.map (fun c => RE.cc (CC.litCI c)))

/-- `\s+` -/
def sp1 : RE := RE.plus CC.space

/-- `\s*` -/
def sp0 : RE := RE.star CC.space

/-! ### Safety classifier (`termi/safety.py`)

Each pattern definition carries the original Python regex in its doc
comment.  The fork-bomb pattern deserves a note: in the source it is the
raw string `:(){ :|:& };:`, in which `(` `)` form an empty regex group
and the top-level `|` splits the pattern into two branches, so it
matches any string containing `:` ++ `\x7b :` or containing `:& \x7d;:`. -/

/-- `\brm\s+(-[a-zA-Z]*f[a-zA-Z]*\s+)?(/|~|\$HOME)\b` -/
def pCrit1 : RE :=
  cats [RE.wb, rlit "rm", sp1,
    RE.opt (cats [rlit "-", RE.star CC.alphaC, rlit "f", RE.star CC.alphaC, sp1]),
    RE.alt (rlit "/") (RE.alt (rlit "~") (rlit "$HOME")), RE.wb]

/-- `\bmkfs\b` -/
def pCrit2 : RE := cats [RE.wb, rlit "mkfs", RE.wb]

/-- `\bdd\s+.*of=/dev/` -/
def pCrit3 : RE := cats [RE.wb, rlit "dd", sp1, RE.star CC.dot, rlit "of=/dev/"]

/-- `:(){ :|:& };:` — see the section comment: an alternation of two literals,
with an empty group inside the first branch. -/
def pCrit4 : RE :=
  RE.alt (cats [rlit ":", RE.eps, rlit "\x7b :"]) (rlit ":& \x7d;:")

/-- `\b>\s*/dev/sd[a-z]` -/
def pCrit5 : RE := cats [RE.wb, rlit ">", sp0, rlit "/dev/sd", RE.cc CC.lowerC]

/-- `\bchmod\s+(-R\s+)?777\s+/` -/
def pCrit6 : RE :=
  cats [RE.wb, rlit "chmod", sp1, RE.opt (cats [rlit "-R", sp1]), rlit "777", sp1, rlit "/"]

/-- `\bchown\s+(-R\s+)?.*\s+/\s*$` -/
def pCrit7 : RE :=
  cats [RE.wb, rlit "chown", sp1, RE.opt (cats [rlit "-R", sp1]),
    RE.star CC.dot, sp1, rlit "/", sp0, RE.eos]

/-- `\brm\s+(-[a-zA-Z]*r[a-zA-Z]*|-[a-zA-Z]*f[a-zA-Z]*)` -/
def pDang1 : RE :=
  cats [RE.wb, rlit "rm", sp1,
    RE.alt (cats [rlit "-", RE.star CC.alphaC, rlit "r", RE.star CC.alphaC])
           (cats [rlit "-", RE.star CC.alphaC, rlit "f", RE.star CC.alphaC])]

/-- `\bsudo\s+rm\b` -/
def pDang2 : RE := cats [RE.wb, rlit "sudo", sp1, rlit "rm", RE.wb]

/-- `\bsudo\s+dd\b` -/
def pDang3 : RE := cats [RE.wb, rlit "sudo", sp1, rlit "dd", RE.wb]

/-- `\bkill\s+-9\b` -/
def pDang4 : RE := cats [RE.wb, rlit "kill", sp1, rlit "-9", RE.wb]

/-- `\bkillall\b` -/
def pDang5 : RE := cats [RE.wb, rlit "killall", RE.wb]

/-- `\bsystemctl\s+(stop|disable|mask)\b` -/
def pDang6 : RE :=
  cats [RE.wb, rlit "systemctl", sp1,
    RE.alt (rlit "stop") (RE.alt (rlit "disable") (rlit "mask")), RE.wb]

/-- `\biptables\s+-F\b` -/
def pDang7 : RE := cats [RE.wb, rlit "iptables", sp1, rlit "-F", RE.wb]

/-- `\b>\s*/etc/` -/
def pDang8 : RE := cats [RE.wb, rlit ">", sp0, rlit "/etc/"]

/-- `\bcurl\s+.*\|\s*(sudo\s+)?\b(bash|sh|zsh)\b` -/
def pDang9 : RE :=
  cats [RE.wb, rlit "curl", sp1, RE.star CC.dot, rlit "|", sp0,
    RE.opt (cats [rlit "sudo", sp1]), RE.wb,
    RE.alt (rlit "bash") (RE.alt (rlit "sh") (rlit "zsh")), RE.wb]

/-- `\bwget\s+.*\|\s*(sudo\s+)?\b(bash|sh|zsh)\b` -/
def pDang10 : RE :=
  cats [RE.wb, rlit "wget", sp1, RE.star CC.dot, rlit "|", sp0,
    RE.opt (cats [rlit "sudo", sp1]), RE.wb,
    RE.alt (rlit "bash") (RE.alt (rlit "sh") (rlit "zsh")), RE.wb]

/-- `\brm\b` -/
def pCau1 : RE := cats [RE.wb, rlit "rm", RE.wb]

/-- `\bsudo\b` -/
def pCau2 : RE := cats [RE.wb, rlit "sudo", RE.wb]

/-- `\bmv\s+` -/
def pCau3 : RE := cats [RE.wb, rlit "mv", sp1]

/-- `\bchmod\b` -/
def pCau4 : RE := cats [RE.wb, rlit "chmod", RE.wb]

/-- `\bchown\b` -/
def pCau5 : RE := cats [RE.wb, rlit "chown", RE.wb]

/-- `\bgit\s+push\s+(-f|--force)` -/
def pCau6 : RE :=
  cats [RE.wb, rlit "git", sp1, rlit "push", sp1, RE.alt (rlit "-f") (rlit "--force")]

/-- `\bgit\s+reset\s+--hard` -/
def pCau7 : RE := cats [RE.wb, rlit "git", sp1, rlit "reset", sp1, rlit "--hard"]

/-- `\bdrop\s+database\b` with `re.IGNORECASE` -/
def pCau8 : RE := cats [RE.wb, rlitCI "drop", sp1, rlitCI "database", RE.wb]

/-- `\btruncate\b` -/
def pCau9 : RE := cats [RE.wb, rlit "truncate", RE.wb]

/-- `\bshutdown\b` -/
def pCau10 : RE := cats [RE.wb, rlit "shutdown", RE.wb]

/-- `\breboot\b` -/
def pCau11 : RE := cats [RE.wb, rlit "reboot", RE.wb]

/-- `_CRITICAL_PATTERNS` from `termi/safety.py`. -/
def _CRITICAL_PATTERNS : List (RE × String) :=
  [(pCrit1, "Deleting root or home directory"),
   (pCrit2, "Formatting filesystem"),
   (pCrit3, "Writing directly to block device"),
   (pCrit4, "Fork bomb detected"),
   (pCrit5, "Overwriting block device"),
   (pCrit6, "Removing all permissions on root"),
   (pCrit7, "Changing ownership of root")]

/-- `_DANGEROUS_PATTERNS` from `termi/safety.py`. -/
def _DANGEROUS_PATTERNS : List (RE × String) :=
  [(pDang1, "Recursive or forced file deletion"),
   (pDang2, "Privileged file deletion"),
   (pDang3, "Privileged disk operation"),
   (pDang4, "Force-killing process"),
   (pDang5, "Killing multiple processes"),
   (pDang6, "Stopping/disabling system service"),
   (pDang7, "Flushing firewall rules"),
   (pDang8, "Overwriting system config"),
   (pDang9, "Piping URL to shell"),
   (pDang10, "Piping URL to shell")]

/-- `_CAUTION_PATTERNS` from `termi/safety.py`. -/
def _CAUTION_PATTERNS : List (RE × String) :=
  [(pCau1, "File deletion"),
   (pCau2, "Elevated privileges"),
   (pCau3, "Moving files"),
   (pCau4, "Changing permissions"),
   (pCau5, "Changing ownership"),
   (pCau6, "Force pushing to git"),
   (pCau7, "Hard git reset"),
   (pCau8, "Dropping database"),
   (pCau9, "Truncating table/file"),
   (pCau10, "System shutdown"),
   (pCau11, "System reboot")]

/-- `RiskLevel` enumeration from `termi/safety.py`. -/
inductive RiskLevel where
  | safe
  | caution
  | dangerous
  | critical
  deriving DecidableEq, Repr

/-- The Python enum's `.value` string. -/
def RiskLevel.value : RiskLevel → String
  | .safe => "safe"
  | .caution => "caution"
  | .dangerous => "dangerous"
  | .critical => "critical"

/-- `SafetyResult` dataclass from `termi/safety.py`. -/
structure SafetyResult where
  level : RiskLevel
  reasons : List String
  suggestion : Option String
  deriving DecidableEq, Repr

/-- `analyze_command` from `termi/safety.py`.  The three `for` loops over
the pattern tiers become three `foldl`s threading `(reasons, max_level)`.
The guard `max_level.value < RiskLevel.DANGEROUS.value or max_level ==
RiskLevel.SAFE` of the dangerous loop compares the enum value *strings*
in the source; `pyStrLt` reproduces that comparison. -/
def analyze_command (cmd : String) : SafetyResult :=
  if pyBlank cmd then ⟨RiskLevel.safe, [], none⟩
  else
    let s := cmd.data
    let st1 := _CRITICAL_PATTERNS.foldl
      (fun (st : List String × RiskLevel) pr =>
        if research pr.1 s then (st.1 ++ ["CRITICAL: " ++ pr.2], RiskLevel.critical) else st)
      ([], RiskLevel.safe)
    let st2 :=
      if st1.2 ≠ RiskLevel.critical then
        _DANGEROUS_PATTERNS.foldl
          (fun (st : List String × RiskLevel) pr =>
            if research pr.1 s then
              (st.1 ++ ["DANGER: " ++ pr.2],
               if pyStrLt st.2.value.data RiskLevel.dangerous.value.data
                   || st.2 == RiskLevel.safe then RiskLevel.dangerous
               else st.2)
            else st)
          st1
      else st1
    let st3 :=
      if st2.2 == RiskLevel.safe then
        _CAUTION_PATTERNS.foldl
          (fun (st : List String × RiskLevel) pr =>
            if research pr.1 s then (st.1 ++ ["Caution: " ++ pr.2], RiskLevel.caution) else st)
          st2
      else st2
    let suggestion :=
      if st3.2 == RiskLevel.critical then
        some "This command is extremely dangerous. Please reconsider."
      else if st3.2 == RiskLevel.dangerous then
        some "Consider adding --dry-run or --interactive flag first."
      else none
    ⟨st3.2, st3.1, suggestion⟩

/-! ### A model of Python `json.loads`

JSON values as a mutual inductive (so that recursion over nested
containers stays structural), and a fuel-indexed recursive-descent
parser.  The fuel is set from the input length with ample slack: every
nested parser call decreases it by one while consuming input, so it can
never be exhausted on a real input. -/

/-- The `{` character (kept out of string literals). -/
def lbrace : Char := Char.ofNat 123

/-- The `}` character. -/
def rbrace : Char := Char.ofNat 125

/-- The `'` character. -/
def squoteC : Char := Char.ofNat 39

mutual
/-- A decoded JSON value. -/
inductive JValue where
  | null : JValue
  | bool : Bool → JValue
  /-- a number, kept as its lexeme -/
  | num : String → JValue
  | str : String → JValue
  | arr : JArr → JValue
  | obj : JObj → JValue

/-- Elements of a JSON array. -/
inductive JArr where
  | nil : JArr
  | cons : JValue → JArr → JArr

/-- Members of a JSON object, in document order. -/
inductive JObj where
  | nil : JObj
  | cons : String → JValue → JObj → JObj
end

/-- `field in obj` / `obj[field]`: Python dicts keep the *last* value
bound to a duplicated key, so later members win. -/
def JObj.find : JObj → String → Option JValue
  | .nil, _ => none
  | .cons k v tl, key =>
    match tl.find key with
    | some r => some r
    | none => if k == key then some v else none

/-- JSON whitespace. -/
def jsonWsChar (c : Char) : Bool := c == ' ' || c == '\t' || c == '\n' || c == '\r'

/-- Drop leading JSON whitespace. -/
def skipWs (cs : List Char) : List Char := cs.dropWhile jsonWsChar

/-- ASCII decimal digit. -/
def jDigit (c : Char) : Bool := '0' ≤ c && c ≤ '9'

/-- Hex digit value (by code point: 0-9, a-f, A-F). -/
def hexVal (c : Char) : Option Nat :=
  let n := c.toNat
  if 48 ≤ n && n ≤ 57 then some (n - 48)
  else if 97 ≤ n && n ≤ 102 then some (n - 87)
  else if 65 ≤ n && n ≤ 70 then some (n - 55)
  else none

/-- Parse the body of a JSON string (after the opening quote), handling
the escape sequences; strict mode rejects raw control characters.
Isolated `\uXXXX` escapes decode to the code point (surrogate pairing is
not modelled; no claim exercises it). -/
def jParseString : Nat → List Char → Option (String × List Char)
  | 0, _ => none
  | fuel + 1, cs =>
    match cs with
    | [] => none
    | c :: rest =>
      if c == '"' then some ("", rest)
      else if c == '\\' then
        match rest with
        | [] => none
        | e :: rest2 =>
          let dec : Option (Char × List Char) :=
            if e == '"' then some ('"', rest2)
            else if e == '\\' then some ('\\', rest2)
            else if e == '/' then some ('/', rest2)
            else if e == 'b' then some (Char.ofNat 8, rest2)
            else if e == 'f' then some (Char.ofNat 12, rest2)
            else if e == 'n' then some ('\n', rest2)
            else if e == 'r' then some ('\r', rest2)
            else if e == 't' then some ('\t', rest2)
            else if e == 'u' then
              match rest2 with
              | h1 :: h2 :: h3 :: h4 :: rest3 =>
                match hexVal h1, hexVal h2, hexVal h3, hexVal h4 with
                | some a, some b, some c2, some d2 =>
                  some (Char.ofNat (((a * 16 + b) * 16 + c2) * 16 + d2), rest3)
                | _, _, _, _ => none
              | _ => none
            else none
          match dec with
          | some (d, rem) =>
            match jParseString fuel rem with
            | some (s, r) => some (String.mk (d :: s.data), r)
            | none => none
          | none => none
      else if c.toNat < 32 then none
      else
        match jParseString fuel rest with
        | some (s, r) => some (String.mk (c :: s.data), r)
        | none => none

/-- Lex a JSON number (`-?(0|[1-9]\d*)(\.\d+)?([eE][+-]?\d+)?`),
returning its lexeme.  As in CPython's scanner the fraction/exponent are
only consumed when well formed; stray characters are left for the
caller, which then fails. -/
def jParseNumber (cs : List Char) : Option (String × List Char) :=
  let (neg, cs1) :=
    match cs with
    | '-' :: t => ((['-'] : List Char), t)
    | _ => ([], cs)
  match cs1 with
  | [] => none
  | d :: _ =>
    if !jDigit d then none
    else
      let intPart := cs1.takeWhile jDigit
      let rest1 := cs1.dropWhile jDigit
      if intPart.length > 1 && intPart.head? == some '0' then none
      else
        let (fracPart, rest2) :=
          match rest1 with
          | '.' :: t =>
            let ds := t.takeWhile jDigit
            if ds.isEmpty then (([] : List Char), rest1)
            else ('.' :: ds, t.dropWhile jDigit)
          | _ => ([], rest1)
        let (expPart, rest3) :=
          match rest2 with
          | e :: t =>
            if e == 'e' || e == 'E' then
              let (sgn, t2) :=
                match t with
                | s :: t2 => if s == '+' || s == '-' then (([s] : List Char), t2) else ([], t)
                | [] => ([], t)
              let ds := t2.takeWhile jDigit
              if ds.isEmpty then (([] : List Char), rest2)
              else (e :: (sgn ++ ds), t2.dropWhile jDigit)
            else ([], rest2)
          | [] => ([], rest2)
        some (String.mk (neg ++ intPart ++ fracPart ++ expPart), rest3)

mutual
/-- Parse one JSON value from the input. -/
def jParseValue : Nat → List Char → Option (JValue × List Char)
  | 0, _ => none
  | fuel + 1, cs =>
    match skipWs cs with
    | [] => none
    | c :: rest =>
      if c == lbrace then
        match skipWs rest with
        | d :: rest2 =>
          if d == rbrace then some (JValue.obj JObj.nil, rest2)
          else
            match jParseMembers fuel rest with
            | some (o, r) => some (JValue.obj o, r)
            | none => none
        | [] => none
      else if c == '[' then
        match skipWs rest with
        | d :: rest2 =>
          if d == ']' then some (JValue.arr JArr.nil, rest2)
          else
            match jParseItems fuel rest with
            | some (a, r) => some (JValue.arr a, r)
            | none => none
        | [] => none
      else if c == '"' then
        match jParseString fuel rest with
        | some (s, r) => some (JValue.str s, r)
        | none => none
      else if c == 't' then
        match rest with
        | 'r' :: 'u' :: 'e' :: r => some (JValue.bool true, r)
        | _ => none
      else if c == 'f' then
        match rest with
        | 'a' :: 'l' :: 's' :: 'e' :: r => some (JValue.bool false, r)
        | _ => none
      else if c == 'n' then
        match rest with
        | 'u' :: 'l' :: 'l' :: r => some (JValue.null, r)
        | _ => none
      else
        match jParseNumber (c :: rest) with
        | some (lex, r) => some (JValue.num lex, r)
        | none => none

/-- Parse one or more `"key": value` members followed by `,` or the
closing brace. -/
def jParseMembers : Nat → List Char → Option (JObj × List Char)
  | 0, _ => none
  | fuel + 1, cs =>
    match skipWs cs with
    | c :: rest =>
      if c == '"' then
        match jParseString fuel rest with
        | some (k, rest2) =>
          match skipWs rest2 with
          | d :: rest3 =>
            if d == ':' then
              match jParseValue fuel rest3 with
              | some (v, rest4) =>
                match skipWs rest4 with
                | e :: rest5 =>
                  if e == ',' then
                    match jParseMembers fuel rest5 with
                    | some (o, rest6) => some (JObj.cons k v o, rest6)
                    | none => none
                  else if e == rbrace then some (JObj.cons k v JObj.nil, rest5)
                  else none
                | [] => none
              | none => none
            else none
          | [] => none
        | none => none
      else none
    | [] => none

/-- Parse one or more array items followed by `,` or `]`. -/
def jParseItems : Nat → List Char → Option (JArr × List Char)
  | 0, _ => none
  | fuel + 1, cs =>
    match jParseValue fuel cs with
    | some (v, rest) =>
      match skipWs rest with
      | e :: rest2 =>
        if e == ',' then
          match jParseItems fuel rest2 with
          | some (a, rest3) => some (JArr.cons v a, rest3)
          | none => none
        else if e == ']' then some (JArr.cons v JArr.nil, rest2)
        else none
      | [] => none
    | none => none
end

/-- Python `json.loads`: parse one value, allow trailing whitespace only. -/
def json_loads (t : String) : Option JValue :=
  match jParseValue (4 * t.length + 8) t.data with
  | some (v, rest) => if (skipWs rest).isEmpty then some v else none
  | none => none

mutual
/-- Python `str()` of a decoded JSON value: strings render as
themselves, scalars as their Python literals, containers in `repr`
style (an approximation — the string fields the claims exercise render
exactly). -/
def pyStrJ : JValue → String
  | .str s => s
  | .bool true => "True"
  | .bool false => "False"
  | .null => "None"
  | .num lex => lex
  | .arr a => "[" ++ pyStrArr a ++ "]"
  | .obj o => String.mk [lbrace] ++ pyStrObj o ++ String.mk [rbrace]

/-- Python `repr()` of a decoded JSON value (strings pick up quotes). -/
def pyReprJ : JValue → String
  | .str s => String.mk [squoteC] ++ s ++ String.mk [squoteC]
  | .bool true => "True"
  | .bool false => "False"
  | .null => "None"
  | .num lex => lex
  | .arr a => "[" ++ pyStrArr a ++ "]"
  | .obj o => String.mk [lbrace] ++ pyStrObj o ++ String.mk [rbrace]

/-- Comma-separated reprs of array items. -/
def pyStrArr : JArr → String
  | .nil => ""
  | .cons v .nil => pyReprJ v
  | .cons v tl => pyReprJ v ++ ", " ++ pyStrArr tl

/-- Comma-separated `'key': repr` renderings of object members. -/
def pyStrObj : JObj → String
  | .nil => ""
  | .cons k v .nil => String.mk [squoteC] ++ k ++ String.mk [squoteC] ++ ": " ++ pyReprJ v
  | .cons k v tl =>
    String.mk [squoteC] ++ k ++ String.mk [squoteC] ++ ": " ++ pyReprJ v ++ ", " ++ pyStrObj tl
end

/-! ### Response parser (`termi/cli.py`, `_parse_json_field` and friends) -/

/-- Lines 67-69 of `cli.py`: `t = text.strip()`, then
`if t.startswith("`"): t = t.strip("`")`. -/
def backtick_stripped (text : String) : String :=
  let t := pyStrip text
  if strStarts t "`" then pyStripBackticks t else t

/-- Lines 67-72 of `cli.py`: the backtick strip followed by the
triple-fence branch (`if t.startswith("```"): ...` keeping
`lines[1:-1]` when there are more than two lines). -/
def fence_strip (text : String) : String :=
  let t := backtick_stripped text
  if strStarts t "```" then
    let lines := pySplitlines t
    joinNL (if lines.length > 2 then (lines.drop 1).dropLast else lines)
  else t

/-- `json.loads(t)` succeeding with a dict that contains `field`:
the value at the field, else `none` (covering parse failure, a non-dict
result, and a missing field — the cases that fall through to raw-text
recovery in the source). -/
def jsonFieldOf (t field : String) : Option JValue :=
  match json_loads t with
  | some (JValue.obj o) => o.find field
  | _ => none

/-- Lines 80-83 of `cli.py`: the first stripped non-empty line that does
not start with `{`. -/
def firstRecoveryLine : List String → Option String
  | [] => none
  | l :: ls =>
    let l := pyStrip l
    if l != "" && !(strStarts l (String.mk [lbrace])) then some l
    else firstRecoveryLine ls

/-- `_parse_json_field` from `termi/cli.py`. -/
def _parse_json_field (text field : String) : String :=
  let t := fence_strip text
  match jsonFieldOf t field with
  | some v => pyStrip (pyStrJ v)
  | none =>
    match firstRecoveryLine (pySplitlines t) with
    | some l => l
    | none => t

/-- `_parse_cmd` from `termi/cli.py`. -/
def _parse_cmd (text : String) : String := _parse_json_field text "cmd"

/-- `_parse_explanation` from `termi/cli.py`. -/
def _parse_explanation (text : String) : String := _parse_json_field text "explanation"

/-- A plan step (the `{"thought": ..., "cmd": ...}` dicts built by
`_parse_plan` in `termi/llm.py` and consumed by `_do_plan`). -/
structure Step where
  thought : String
  cmd : String
  deriving DecidableEq, Repr

/-- The loop of `_parse_plan`: keep every item that is a dict with a
`cmd` key, coercing `thought`/`cmd` through `str(...).strip()`. -/
def planStepsOf : JArr → List Step
  | .nil => []
  | .cons (JValue.obj o) tl =>
    (match o.find "cmd" with
     | some c =>
       (⟨pyStrip (pyStrJ (match o.find "thought" with | some t => t | none => JValue.str "")),
         pyStrip (pyStrJ c)⟩ : Step) :: planStepsOf tl
     | none => planStepsOf tl)
  | .cons _ tl => planStepsOf tl

/-- `str(obj.get("notes", "")).strip()`. -/
def planNotesOf (o : JObj) : String :=
  pyStrip (pyStrJ (match o.find "notes" with | some v => v | none => JValue.str ""))

/-- `_parse_plan` from `termi/llm.py`: `text.strip().strip("`")` (the
backtick strip is unconditional here), then the JSON object with a
`plan` field.  Iterating a non-list `plan` value yields no dict items
(string/dict) or raises in the source (scalars) — both modelled as the
empty plan. -/
def _parse_plan (text : String) : List Step × String :=
  let t := pyStripBackticks (pyStrip text)
  match json_loads t with
  | some (JValue.obj o) =>
    match o.find "plan" with
    | some (JValue.arr items) => (planStepsOf items, planNotesOf o)
    | some _ => ([], "")
    | none => ([], "")
  | _ => ([], "")

/-! ### Heuristic fallback generator (`termi/fallback.py`)

The four capture regexes of the module are modelled by dedicated
leftmost scanners; each carries the original pattern. Greedy
backtracking collapses to taking maximal runs for these patterns
(shortening a maximal digit/space run re-yields a digit/space where a
unit letter or digit is required). -/

/-- Leftmost-match search: try the matcher at every start position. -/
def scanFirst {α : Type} (f : List Char → Option α) : List Char → Option α
  | [] => f []
  | c :: t =>
    match f (c :: t) with
    | some r => some r
    | none => scanFirst f t

/-- Maximal digit run. -/
def takeDigits (cs : List Char) : List Char := cs.takeWhile jDigit

/-- `top\s+(\d+)` at one position. -/
def reTopNAt : List Char → Option String
  | 't' :: 'o' :: 'p' :: rest =>
    let sp := rest.takeWhile pyspace
    let rest2 := rest.dropWhile pyspace
    let ds := takeDigits rest2
    if !sp.isEmpty && !ds.isEmpty then some (String.mk ds) else none
  | _ => none

/-- `_RE_TOP_N = re.compile(r"top\s+(\d+)")`, group 1 of the first match. -/
def reTopN (s : String) : Option String := scanFirst reTopNAt s.data

/-- Word boundary directly after a word character, given the rest of
the input: end of string or a non-word character. -/
def boundaryAfter (rest : List Char) : Bool :=
  match rest with
  | [] => true
  | c :: _ => !isWordChar c

/-- `(m|mb|g|gb)\b` with Python's left-to-right alternation order. -/
def sizeUnitAt : List Char → Option String
  | 'm' :: rest =>
    if boundaryAfter rest then some "m"
    else
      (match rest with
       | 'b' :: rest2 => if boundaryAfter rest2 then some "mb" else none
       | _ => none)
  | 'g' :: rest =>
    if boundaryAfter rest then some "g"
    else
      (match rest with
       | 'b' :: rest2 => if boundaryAfter rest2 then some "gb" else none
       | _ => none)
  | _ => none

/-- `(\d+)\s*(m|mb|g|gb)\b` at one position. -/
def reSizeAt (cs : List Char) : Option (String × String) :=
  let ds := takeDigits cs
  if ds.isEmpty then none
  else
    let rest := (cs.dropWhile jDigit).dropWhile pyspace
    match sizeUnitAt rest with
    | some u => some (String.mk ds, u)
    | none => none

/-- `_RE_SIZE_PATTERN = re.compile(r"(\d+)\s*(m|mb|g|gb)\b")`, groups of
the first match. -/
def reSizePattern (s : String) : Option (String × String) := scanFirst reSizeAt s.data

/-- `"([^"]+)"|'([^']+)'` at one position (the matched quote content). -/
def quotedAt : List Char → Option String
  | [] => none
  | q :: rest =>
    if q == '"' then
      let content := rest.takeWhile (fun c => c != '"')
      let rest2 := rest.dropWhile (fun c => c != '"')
      if !content.isEmpty && !rest2.isEmpty then some (String.mk content) else none
    else if q == squoteC then
      let content := rest.takeWhile (fun c => c != squoteC)
      let rest2 := rest.dropWhile (fun c => c != squoteC)
      if !content.isEmpty && !rest2.isEmpty then some (String.mk content) else none
    else none

/-- `_RE_QUOTED_TEXT`: the quoted term of the first match, searched in
the original (non-lowercased) text. -/
def reQuotedText (s : String) : Option String := scanFirst quotedAt s.data

/-- `_RE_FILE_EXT = re.compile(r'\.(\w+)$')`: a dot followed by word
characters at the end of the string (or before a final newline). -/
def reFileExt (s : String) : Option String :=
  let cs := s.data
  let base := if cs.getLast? == some '\n' then cs.dropLast else cs
  let revb := base.reverse
  let run := revb.takeWhile isWordChar
  let restr := revb.dropWhile isWordChar
  if !run.isEmpty && restr.head? == some '.' then some (String.mk run.reverse) else none

/-- `[\w\-\.]` -/
def nameCharB (c : Char) : Bool := isWordChar c || c == '-' || c == '.'

/-- `name\s+([\w\-\.]+)` at one position. -/
def reNameAt : List Char → Option String
  | 'n' :: 'a' :: 'm' :: 'e' :: rest =>
    let sp := rest.takeWhile pyspace
    let rest2 := rest.dropWhile pyspace
    let run := rest2.takeWhile nameCharB
    if !sp.isEmpty && !run.isEmpty then some (String.mk run) else none
  | _ => none

/-- `_RE_NAME_PATTERN = re.compile(r'name\s+([\w\-\.]+)')`, group 1. -/
def reNamePattern (s : String) : Option String := scanFirst reNameAt s.data

/-- The replacement `s.replace("'", "'\"'\"'")` done by `shlex.quote`. -/
def shlexEscape : List Char → List Char
  | [] => []
  | c :: t =>
    if c == squoteC then [squoteC, '"', squoteC, '"', squoteC] ++ shlexEscape t
    else c :: shlexEscape t

/-- `shlex.quote`: unchanged when every character is in the safe set
(word characters and `@ % + = : , .` plus slash and dash), otherwise
wrapped in single quotes with embedded quotes escaped. -/
def shlexQuote (s : String) : String :=
  if s == "" then String.mk [squoteC, squoteC]
  else if s.data.all (fun c =>
      isWordChar c || c == '@' || c == '%' || c == '+' || c == '=' || c == ':' ||
      c == ',' || c == '.' || c == '/' || c == '-') then s
  else String.mk (squoteC :: shlexEscape s.data ++ [squoteC])

/-- `fallback_command` from `termi/fallback.py`: the ordered cascade of
keyword rules over the stripped, lowercased input. -/
def fallback_command (nl : String) : String :=
  let s := pyLower (pyStrip nl)
  if (pyIn "large" s || pyIn "largest" s || pyIn "big" s || pyIn "biggest" s || pyIn "huge" s)
      && (pyIn "file" s || pyIn "files" s) then
    let top := match reTopN s with
      | some ds => toString (digitsToNat ds.data 0)
      | none => "20"
    let thresh := match reSizePattern s with
      | some (qty, unit) =>
        let unit := pyLower unit
        if unit == "m" || unit == "mb" then "+" ++ qty ++ "M"
        else if unit == "g" || unit == "gb" then "+" ++ qty ++ "G"
        else "+100M"
      | none => "+100M"
    "find . -type f -size " ++ thresh ++ " -print0 | xargs -0 ls -lh | sort -k5 -h | tail -n " ++ top
  else if pyIn "free space" s || pyIn "how much space" s then "df -h"
  else if (pyIn "disk" s && pyIn "usage" s) || (pyIn "space" s && pyIn "used" s) then
    "du -sh * | sort -rh"
  else if (pyIn "search" s || pyIn "find" s) && (pyIn "text" s || pyIn "string" s || pyIn " for " s) then
    match reQuotedText nl with
    | some term => "grep -RIn " ++ shlexQuote term ++ " ."
    | none => "grep -RIn ."
  else if pyIn "find" s && (pyIn "file" s || pyIn "files" s || pyIn "name" s) then
    match reFileExt s with
    | some ext => "find . -type f -iname " ++ String.mk [squoteC] ++ "*." ++ ext ++ String.mk [squoteC]
    | none =>
      match reNamePattern s with
      | some pat => "find . -type f -iname " ++ shlexQuote pat
      | none => "find . -type f -maxdepth 3 -print"
  else if pyIn "process" s || pyIn "processes" s || pyIn "running apps" s then "ps aux | head -30"
  else if pyIn "open ports" s || (pyIn "ports" s && pyIn "listen" s) then "lsof -i -P | grep LISTEN"
  else if pyIn "ip address" s || pyIn "my ip" s then
    "ipconfig getifaddr en0 2>/dev/null || hostname -I 2>/dev/null || curl -s ifconfig.me"
  else if pyIn "system info" s || pyIn "os version" s then
    "uname -a && (sw_vers 2>/dev/null || cat /etc/os-release 2>/dev/null || echo " ++
      String.mk [squoteC] ++ "Unknown OS" ++ String.mk [squoteC] ++ ")"
  else if strStarts s "git status" || pyIn "git status" s then "git status"
  else if pyIn "pull" s && pyIn "git" s then "git pull --ff-only"
  else if pyIn "show branches" s || (pyIn "git" s && pyIn "branch" s) then "git branch -vv"
  else if pyIn "git log" s || pyIn "commit history" s then "git log --oneline -20"
  else if (pyIn "list" s || pyIn "show" s) && (pyIn "files" s || pyIn "dir" s || pyIn "directory" s) then
    "ls -la"
  else if pyIn "cpu" s && (pyIn "usage" s || pyIn "load" s) then "top -l 1 -n 0 2>/dev/null || uptime"
  else if pyIn "memory" s || pyIn "ram" s then
    "free -h 2>/dev/null || vm_stat 2>/dev/null || echo " ++
      String.mk [squoteC] ++ "Use Activity Monitor" ++ String.mk [squoteC]
  else if pyIn "network" s && (pyIn "connection" s || pyIn "interface" s) then
    "ifconfig 2>/dev/null || ip addr show"
  else if pyIn "docker" s && (pyIn "container" s || pyIn "running" s) then "docker ps"
  else if pyIn "env" s && (pyIn "variable" s || pyIn "var" s) then "env | sort | head -50"
  else if pyIn "count" s && (pyIn "file" s || pyIn "lines" s) then "find . -type f | wc -l"
  else if pyIn "compress" s || pyIn "zip" s || pyIn "tar" s then "tar -czvf archive.tar.gz ."
  else if pyIn "extract" s || pyIn "unzip" s || pyIn "untar" s then "tar -xzvf archive.tar.gz"
  else "ls -la"

/-! ### Execution flows (`termi/cli.py`)

The flows return the final exit status together with the trace of
command strings actually passed to `subprocess.run`. Console rendering
and history recording are elided; the LLM reply, the user's typed
confirmation answers and the shell's exit codes enter as oracles. -/

/-- The slice of the configuration the gates read.  `--no-safety` at
invocation (or the interactive `:safety` toggle) turns
`safety_confirm` off. -/
structure Config where
  safety_confirm : Bool
  deriving DecidableEq, Repr

/-- `_show_safety` from `termi/cli.py` (its boolean result; the printing
is elided): `True` when safety checks are disabled or the level is not
Critical, `False` exactly for a Critical verdict with checks enabled. -/
def show_safety (cmd : String) (cfg : Config) : Bool :=
  if !cfg.safety_confirm then true
  else
    let result := analyze_command cmd
    if result.level == RiskLevel.safe then true
    else if result.level == RiskLevel.critical then false
    else true

/-- `_confirm` from `termi/cli.py`.  `ans` is the typed input
(`none` models EOF/interrupt, which returns `False`); an empty answer
after strip/lower picks the default, otherwise only `y`/`yes` accept. -/
def confirm (ans : Option String) (dflt : Bool) : Bool :=
  match ans with
  | none => false
  | some a =>
    let a := pyLower (pyStrip a)
    if a == "" then dflt else (a == "y" || a == "yes")

/-- `_run_command` from `termi/cli.py`: a blank command returns 1
without touching the shell, otherwise the command is executed and its
exit code returned (interrupt/exception codes 130/1 are folded into the
`runner` oracle).  The second component is the execution trace. -/
def _run_command (cmd : String) (runner : String → Int) : Int × List String :=
  if pyBlank cmd then (1, []) else (runner cmd, [cmd])

/-- The oracles feeding one `_do_oneshot` call: the raw LLM reply
(`""` when `generate_command` raised), the answer typed at `Run this?`,
and the shell exit codes. -/
structure OneshotEnv where
  raw : String
  runAnswer : Option String
  runner : String → Int

/-- Lines 208-213 of `cli.py`: `cmd = _parse_cmd(raw) if raw else ""`,
falling back to the heuristic generator when empty. -/
def oneshot_cmd (text raw : String) : String :=
  let cmd := if raw == "" then "" else _parse_cmd raw
  if cmd == "" then fallback_command text else cmd

/-- `_do_oneshot` from `termi/cli.py` (glossing output and history):
parse/fallback, safety gate (returns 1 when blocked), dry-run stop
(returns 0), confirmation (declining returns 0), then execution. -/
def _do_oneshot (text : String) (cfg : Config) (env : OneshotEnv) (dry : Bool) :
    Int × List String :=
  let cmd := oneshot_cmd text env.raw
  if !show_safety cmd cfg then (1, [])
  else if dry then (0, [])
  else if !confirm env.runAnswer true then (0, [])
  else _run_command cmd env.runner

/-- The per-step loop of `_do_plan` (lines 261-283 of `cli.py`).
`i` is the 1-based step number; `ans1 i` is the input typed at
`Run step i?` (default yes) and `ans2 i` the input typed at `Continue?`
after a failure (default no); `rcf` is the running `rc_final`. -/
def plan_loop (cfg : Config) (auto dry : Bool) (runner : String → Int)
    (ans1 ans2 : Nat → Option String) : List Step → Nat → Int → Int × List String
  | [], _, rcf => (rcf, [])
  | st :: rest, i, rcf =>
    if st.cmd == "" then plan_loop cfg auto dry runner ans1 ans2 rest (i + 1) rcf
    else if dry then plan_loop cfg auto dry runner ans1 ans2 rest (i + 1) rcf
    else if !show_safety st.cmd cfg then plan_loop cfg auto dry runner ans1 ans2 rest (i + 1) rcf
    else if !auto && !confirm (ans1 i) true then
      plan_loop cfg auto dry runner ans1 ans2 rest (i + 1) rcf
    else
      let run := _run_command st.cmd runner
      let rcf2 := if run.1 != 0 then run.1 else rcf
      if run.1 != 0 && (!auto && !confirm (ans2 i) false) then (rcf2, run.2)
      else
        let r := plan_loop cfg auto dry runner ans1 ans2 rest (i + 1) rcf2
        (r.1, run.2 ++ r.2)

/-- `_do_plan` from `termi/cli.py` with the plan steps already parsed:
an empty plan returns 1; otherwise the step loop starts with
`rc_final = 0`. -/
def _do_plan (cfg : Config) (steps : List Step) (auto dry : Bool)
    (runner : String → Int) (ans1 ans2 : Nat → Option String) : Int × List String :=
  if steps.isEmpty then (1, [])
  else plan_loop cfg auto dry runner ans1 ans2 steps 1 0

/-! ### History store (`termi/history.py`)

`HistoryEntry` mirrors the dataclass (the float timestamp is modelled
as an integer — no claim depends on its value).  Disk lines enter as
their decode results: `none` stands for a line `json.loads` or the
`HistoryEntry(**obj)` constructor rejects, which `_load` skips. -/

/-- The `HistoryEntry` dataclass. -/
structure HistoryEntry where
  timestamp : Int
  query : String
  command : String
  mode : String
  model : String
  exit_code : Option Int
  cwd : String
  bookmarked : Bool
  deriving DecidableEq, Repr

/-- Python `l[-limit:]`: for `limit = 0` this is `l[0:]`, the whole
list; otherwise the last `limit` elements. -/
def pySliceLast {α : Type} (l : List α) (limit : Nat) : List α :=
  if limit == 0 then l else l.drop (l.length - limit)

/-- The in-memory history state: the `_limit` and `_entries` fields. -/
structure HistoryM where
  limit : Nat
  entries : List HistoryEntry
  deriving Repr

/-- `History.__init__` + `History._load`: keep the decode results of
`lines[-limit:]`, skipping undecodable lines. -/
def History.init (limit : Nat) (diskLines : List (Option HistoryEntry)) : HistoryM :=
  { limit := limit, entries := (pySliceLast diskLines limit).filterMap id }

/-- `History.add` (the in-memory part; the file append is elided):
append, then truncate to `entries[-limit:]` when over the limit. -/
def HistoryM.add (h : HistoryM) (e : HistoryEntry) : HistoryM :=
  let es := h.entries ++ [e]
  let es := if es.length > h.limit then pySliceLast es h.limit else es
  { h with entries := es }

/-- A sequence of `add` calls. -/
def HistoryM.addAll (h : HistoryM) (es : List HistoryEntry) : HistoryM :=
  es.foldl HistoryM.add h

/-! ### Characterization of `analyze_command`

The spec reads the classifier as: the verdict's level is the highest
tier containing a matching pattern, and the reasons are exactly the
matching patterns of that tier, in declaration order, with the tier's
prefix.  `specLevel`/`specReasons`/`specSuggestion` below state that
reading; `analyze_eq_spec` proves the source model equal to it. -/

/-- The patterns of a tier matching a command, in declaration order. -/
def matchedOf (ps : List (RE × String)) (cmd : String) : List (RE × String) :=
  ps.filter (fun pr => research pr.1 cmd.data)

/-- Tier-prefixed descriptions. -/
def tagged (tag : String) (ps : List (RE × String)) : List String :=
  ps.map (fun pr => tag ++ pr.2)

/-- Spec reading of the level: the highest tier with a matching pattern. -/
def specLevel (cmd : String) : RiskLevel :=
  if !(matchedOf _CRITICAL_PATTERNS cmd).isEmpty then RiskLevel.critical
  else if !(matchedOf _DANGEROUS_PATTERNS cmd).isEmpty then RiskLevel.dangerous
  else if !(matchedOf _CAUTION_PATTERNS cmd).isEmpty then RiskLevel.caution
  else RiskLevel.safe

/-- Spec reading of the reasons: one entry per matching pattern of the
highest matching tier, in declaration order, with the tier prefix. -/
def specReasons (cmd : String) : List String :=
  if !(matchedOf _CRITICAL_PATTERNS cmd).isEmpty then
    tagged "CRITICAL: " (matchedOf _CRITICAL_PATTERNS cmd)
  else if !(matchedOf _DANGEROUS_PATTERNS cmd).isEmpty then
    tagged "DANGER: " (matchedOf _DANGEROUS_PATTERNS cmd)
  else if !(matchedOf _CAUTION_PATTERNS cmd).isEmpty then
    tagged "Caution: " (matchedOf _CAUTION_PATTERNS cmd)
  else []

/-- Spec reading of the suggestion: fixed advisory text for Critical and
Dangerous, nothing otherwise. -/
def specSuggestion (cmd : String) : Option String :=
  if specLevel cmd == RiskLevel.critical then
    some "This command is extremely dangerous. Please reconsider."
  else if specLevel cmd == RiskLevel.dangerous then
    some "Consider adding --dry-run or --interactive flag first."
  else none

/-- Atoms that only match non-whitespace characters. -/
def CC.onlyNonspace : CC → Bool
  | .lit c => !pyspace c
  | .litCI c => !pyspace c.toLower
  | .dot => false
  | .space => false
  | .alphaC => true
  | .lowerC => true

/-- A regex that can only match by consuming a non-whitespace character
somewhere. -/
def RE.mns : RE → Bool
  | .eps => false
  | .cc c => c.onlyNonspace
  | .cat a b => a.mns || b.mns
  | .alt a b => a.mns && b.mns
  | .star _ => false
  | .plus c => c.onlyNonspace
  | .opt _ => false
  | .wb => false
  | .eos => false

/-- The "sticky" exit-code accumulator of the plan loop. -/
def stickyFold (rcs : List Int) (init : Int) : Int :=
  rcs.foldl (fun acc r => if r != 0 then r else acc) init

/-! ### Concrete instances used by the claim witnesses -/

/-- A configuration with safety checks enabled. -/
def cfgOn : Config := ⟨true⟩

/-- Oracles: the model replied `ls -la` and the user hit enter at the
confirmation. -/
def envOk : OneshotEnv := ⟨"ls -la", some "", fun _ => 0⟩

/-- Oracles: the model replied `ls -la` and the user typed `n`. -/
def envDecline : OneshotEnv := ⟨"ls -la", some "n", fun _ => 0⟩

/-- Oracles: the model replied with a Critical command. -/
def envCrit : OneshotEnv := ⟨"rm -rf /home", some "", fun _ => 0⟩

/-- A three step plan: ok, fail, ok. -/
def demoSteps : List Step := [⟨"first", "echo a"⟩, ⟨"breaks", "boom"⟩, ⟨"last", "echo b"⟩]

/-- A shell in which `boom` exits 2 and everything else succeeds. -/
def demoRunner : String → Int := fun c => if c == "boom" then 2 else 0

/-- The user hits enter at every prompt. -/
def demoAns : Nat → Option String := fun _ => some ""

/-- A fenced JSON reply with a language tag. -/
def fencedExample : String := "```json\n\x7b\"cmd\": \"ls -la\"\x7d\n```"

/-- An unparseable reply whose only line starts with a brace. -/
def bracedBad : String := "\x7bbad"

/-- A demo history entry. -/
def eDemo : HistoryEntry := ⟨0, "list files", "ls -la", "oneshot", "", none, "", false⟩

/-- Another demo history entry. -/
def eDemo2 : HistoryEntry := ⟨1, "disk usage", "du -sh *", "oneshot", "", none, "", false⟩

lemma pyspace_cases {x : Char} (h : pyspace x = true) :
    x = ' ' ∨ x = '\t' ∨ x = '\n' ∨ x = '\r' ∨ x = Char.ofNat 11 ∨ x = Char.ofNat 12 := by
  simp only [pyspace, Bool.or_eq_true, beq_iff_eq] at h
  tauto

lemma pyspace_toLower {x : Char} (h : pyspace x = true) : x.toLower = x := by
  rcases pyspace_cases h with h | h | h | h | h | h <;> subst h <;> decide

lemma cc_test_nonspace {c : CC} {x : Char} (hc : c.onlyNonspace = true)
    (ht : c.test x = true) : pyspace x = false := by
  by_contra hx
  rw [Bool.not_eq_false] at hx
  cases c with
  | lit a =>
    simp only [CC.test, beq_iff_eq] at ht
    subst ht
    simp only [CC.onlyNonspace, hx] at hc
    exact absurd hc (by simp)
  | litCI a =>
    simp only [CC.test, beq_iff_eq] at ht
    have hxx : x.toLower = x := pyspace_toLower hx
    rw [hxx] at ht
    rw [CC.onlyNonspace, ← ht, hx] at hc
    exact absurd hc (by simp)
  | dot => simp [CC.onlyNonspace] at hc
  | space => simp [CC.onlyNonspace] at hc
  | alphaC =>
    rcases pyspace_cases hx with h | h | h | h | h | h <;> subst h <;> simp [CC.test] at ht
  | lowerC =>
    rcases pyspace_cases hx with h | h | h | h | h | h <;> subst h <;> simp [CC.test] at ht

lemma mmatch_mns : ∀ (p : RE) (s : List Char) (i j : Nat), p.mns = true →
    j ∈ mmatch p s i → ∃ x ∈ s, pyspace x = false := by
  intro p
  induction p with
  | eps => intro s i j h; simp [RE.mns] at h
  | cc c =>
    intro s i j hm hj
    simp only [mmatch] at hj
    cases hx : s.get? i with
    | none => rw [hx] at hj; simp at hj
    | some x =>
      rw [hx] at hj
      by_cases ht : c.test x
      · exact ⟨x, List.get?_mem hx, cc_test_nonspace hm ht⟩
      · simp [ht] at hj
  | cat a b iha ihb =>
    intro s i j hm hj
    simp only [mmatch, List.mem_flatMap] at hj
    obtain ⟨m, hma, hmb⟩ := hj
    simp only [RE.mns, Bool.or_eq_true] at hm
    rcases hm with hm | hm
    · exact iha s i m hm hma
    · exact ihb s m j hm hmb
  | alt a b iha ihb =>
    intro s i j hm hj
    simp only [RE.mns, Bool.and_eq_true] at hm
    simp only [mmatch, List.mem_append] at hj
    rcases hj with hj | hj
    · exact iha s i j hm.1 hj
    · exact ihb s i j hm.2 hj
  | star c => intro s i j h; simp [RE.mns] at h
  | plus c =>
    intro s i j hm hj
    simp only [mmatch] at hj
    cases hx : s.get? i with
    | none => rw [hx] at hj; simp at hj
    | some x =>
      rw [hx] at hj
      by_cases ht : c.test x
      · exact ⟨x, List.get?_mem hx, cc_test_nonspace hm ht⟩
      · simp [ht] at hj
  | opt a ih => intro s i j h; simp [RE.mns] at h
  | wb => intro s i j h; simp [RE.mns] at h
  | eos => intro s i j h; simp [RE.mns] at h

lemma research_mns_blank {p : RE} {s : List Char} (hm : p.mns = true)
    (hb : s.all pyspace = true) : research p s = false := by
  by_contra h
  rw [Bool.not_eq_false, research, List.any_eq_true] at h
  obtain ⟨i, _, hi⟩ := h
  rw [Bool.not_eq_true', List.isEmpty_eq_false_iff_exists_mem] at hi
  obtain ⟨j, hj⟩ := hi
  obtain ⟨x, hxs, hxn⟩ := mmatch_mns p s i j hm hj
  rw [List.all_eq_true] at hb
  rw [hb x hxs] at hxn
  exact absurd hxn (by simp)

lemma all_patterns_mns :
    ((_CRITICAL_PATTERNS ++ _DANGEROUS_PATTERNS ++ _CAUTION_PATTERNS).all
      (fun pr => pr.1.mns)) = true := by decide

lemma matchedOf_blank {ps : List (RE × String)} {cmd : String}
    (hps : ∀ pr ∈ ps, pr.1.mns = true) (hb : pyBlank cmd = true) :
    matchedOf ps cmd = [] := by
  rw [matchedOf, List.filter_eq_nil_iff]
  intro pr hpr
  rw [pyBlank] at hb
  simp [research_mns_blank (hps pr hpr) hb]

lemma tier_foldl_const (s : List Char) (L : RiskLevel) (tag : String) :
    ∀ (ps : List (RE × String)) (acc : List String) (lv : RiskLevel),
      ps.foldl (fun (st : List String × RiskLevel) pr =>
          if research pr.1 s then (st.1 ++ [tag ++ pr.2], L) else st) (acc, lv)
        = (acc ++ (ps.filter (fun pr => research pr.1 s)).map (fun pr => tag ++ pr.2),
           if (ps.filter (fun pr => research pr.1 s)).isEmpty then lv else L) := by
  intro ps
  induction ps with
  | nil => intro acc lv; simp
  | cons pr ps ih =>
    intro acc lv
    by_cases h : research pr.1 s
    · rw [List.foldl_cons, if_pos h, ih, List.filter_cons_of_pos (by simp [h])]
      simp
    · rw [List.foldl_cons, if_neg h, ih, List.filter_cons_of_neg (by simp [h])]

lemma dang_foldl (s : List Char) :
    ∀ (ps : List (RE × String)) (acc : List String) (lv : RiskLevel),
      (lv = RiskLevel.safe ∨ lv = RiskLevel.dangerous) →
      ps.foldl (fun (st : List String × RiskLevel) pr =>
          if research pr.1 s then
            (st.1 ++ ["DANGER: " ++ pr.2],
             if pyStrLt st.2.value.data RiskLevel.dangerous.value.data
                 || st.2 == RiskLevel.safe then RiskLevel.dangerous
             else st.2)
          else st) (acc, lv)
        = (acc ++ (ps.filter (fun pr => research pr.1 s)).map (fun pr => "DANGER: " ++ pr.2),
           if (ps.filter (fun pr => research pr.1 s)).isEmpty then lv else RiskLevel.dangerous) := by
  intro ps
  induction ps with
  | nil => intro acc lv _; simp
  | cons pr ps ih =>
    intro acc lv hlv
    by_cases h : research pr.1 s
    · have hstep : (if pyStrLt lv.value.data RiskLevel.dangerous.value.data
          || lv == RiskLevel.safe then RiskLevel.dangerous else lv) = RiskLevel.dangerous := by
        rcases hlv with h' | h' <;> subst h' <;> decide
      rw [List.foldl_cons, if_pos h]
      simp only [hstep]
      rw [ih (acc ++ ["DANGER: " ++ pr.2]) RiskLevel.dangerous (Or.inr rfl),
        List.filter_cons_of_pos (by simp [h])]
      simp
    · rw [List.foldl_cons, if_neg h, ih acc lv hlv, List.filter_cons_of_neg (by simp [h])]

lemma analyze_eq_spec (cmd : String) :
    analyze_command cmd = ⟨specLevel cmd, specReasons cmd, specSuggestion cmd⟩ := by
  have hmnsCrit : ∀ pr ∈ _CRITICAL_PATTERNS, pr.1.mns = true := by decide
  have hmnsDang : ∀ pr ∈ _DANGEROUS_PATTERNS, pr.1.mns = true := by decide
  have hmnsCaut : ∀ pr ∈ _CAUTION_PATTERNS, pr.1.mns = true := by decide
  by_cases hbl : pyBlank cmd
  · rw [analyze_command, if_pos hbl]
    simp [specLevel, specReasons, specSuggestion, matchedOf_blank hmnsCrit hbl,
      matchedOf_blank hmnsDang hbl, matchedOf_blank hmnsCaut hbl]
  · rw [analyze_command, if_neg hbl]
    simp only [tier_foldl_const cmd.data RiskLevel.critical "CRITICAL: " _CRITICAL_PATTERNS []
      RiskLevel.safe, List.nil_append]
    by_cases hc : ((_CRITICAL_PATTERNS.filter (fun pr => research pr.1 cmd.data)).isEmpty)
    · have hc' : _CRITICAL_PATTERNS.filter (fun pr => research pr.1 cmd.data) = [] :=
        List.isEmpty_iff.mp hc
      simp only [hc', List.isEmpty_nil, if_true, List.map_nil]
      simp only [show (RiskLevel.safe ≠ RiskLevel.critical) = True by simp, if_true, ite_true]
      rw [dang_foldl cmd.data _DANGEROUS_PATTERNS _ RiskLevel.safe (Or.inl rfl)]
      by_cases hd : ((_DANGEROUS_PATTERNS.filter (fun pr => research pr.1 cmd.data)).isEmpty)
      · have hd' : _DANGEROUS_PATTERNS.filter (fun pr => research pr.1 cmd.data) = [] :=
          List.isEmpty_iff.mp hd
        simp only [hd', List.isEmpty_nil, if_true, List.map_nil, List.nil_append,
          List.append_nil]
        simp only [show (RiskLevel.safe == RiskLevel.safe) = true by decide, if_true, ite_true]
        rw [tier_foldl_const cmd.data RiskLevel.caution "Caution: " _CAUTION_PATTERNS _
          RiskLevel.safe]
        by_cases hca : ((_CAUTION_PATTERNS.filter (fun pr => research pr.1 cmd.data)).isEmpty)
        · have hca' : _CAUTION_PATTERNS.filter (fun pr => research pr.1 cmd.data) = [] :=
            List.isEmpty_iff.mp hca
          simp [specLevel, specReasons, specSuggestion, matchedOf, tagged, hc', hd', hca']
        · have hca' : ¬ (_CAUTION_PATTERNS.filter (fun pr => research pr.1 cmd.data) = []) :=
            fun h => hca (by simp [h])
          simp [specLevel, specReasons, specSuggestion, matchedOf, tagged, hc', hd', hca']
      · have hd' : ¬ (_DANGEROUS_PATTERNS.filter (fun pr => research pr.1 cmd.data) = []) :=
          fun h => hd (by simp [h])
        have hde : (_DANGEROUS_PATTERNS.filter (fun pr => research pr.1 cmd.data)).isEmpty
            = false := by
          rw [List.isEmpty_eq_false_iff_exists_mem]
          rcases List.exists_mem_of_ne_nil _ hd' with ⟨x, hx⟩
          exact ⟨x, hx⟩
        simp only [hde, Bool.false_eq_true, if_false]
        simp only [show (RiskLevel.dangerous == RiskLevel.safe) = false by decide,
          Bool.false_eq_true, if_false, ite_false]
        simp [specLevel, specReasons, specSuggestion, matchedOf, tagged, hc', hd']
    · have hc' : ¬ (_CRITICAL_PATTERNS.filter (fun pr => research pr.1 cmd.data) = []) :=
        fun h => hc (by simp [h])
      have hce : (_CRITICAL_PATTERNS.filter (fun pr => research pr.1 cmd.data)).isEmpty
          = false := by
        rw [List.isEmpty_eq_false_iff_exists_mem]
        rcases List.exists_mem_of_ne_nil _ hc' with ⟨x, hx⟩
        exact ⟨x, hx⟩
      simp only [hce, Bool.false_eq_true, if_false]
      simp only [show (RiskLevel.critical ≠ RiskLevel.critical) = False by simp, if_false,
        ite_false]
      simp [specLevel, specReasons, specSuggestion, matchedOf, tagged, hc']

/-! ### The triple-fence branch of the parser is dead code

`t.strip("`")` removes every leading backtick, so by the time the
source checks `t.startswith("```")` the text cannot start with a
backtick any more. -/

lemma dropWhile_head_false (p : Char → Bool) (l : List Char) {c : Char} {t : List Char}
    (h : l.dropWhile p = c :: t) : p c = false := by
  by_contra hp
  rw [Bool.not_eq_false] at hp
  have hid := List.dropWhile_idempotent p l
  rw [h, List.dropWhile_cons, if_pos hp] at hid
  have hlen := congrArg List.length hid
  have hle : (t.dropWhile p).length ≤ t.length := (List.dropWhile_suffix p).length_le
  simp at hlen
  omega

lemma stripWhile_head_false (p : Char → Bool) (l : List Char) {c : Char} {t : List Char}
    (h : stripWhile p l = c :: t) : p c = false := by
  have h2 : List.rdropWhile p (l.dropWhile p) = c :: t := h
  have hpre := List.rdropWhile_prefix p (l.dropWhile p)
  rw [h2] at hpre
  obtain ⟨r, hr⟩ := hpre
  exact dropWhile_head_false p l hr.symm

lemma strStarts_three_one {s : String} (h : strStarts s "```" = true) :
    strStarts s "`" = true := by
  rw [strStarts] at h ⊢
  rw [show ("```".data : List Char) = ['`', '`', '`'] from rfl] at h
  rw [show ("`".data : List Char) = ['`'] from rfl]
  cases hd : s.data with
  | nil => rw [hd] at h; simp [List.isPrefixOf] at h
  | cons c t =>
    rw [hd] at h
    simp only [List.isPrefixOf, Bool.and_eq_true] at h ⊢
    exact ⟨h.1, trivial⟩

lemma fence_strip_eq_backtick_stripped (text : String) :
    fence_strip text = backtick_stripped text := by
  have h3 : strStarts (backtick_stripped text) "```" = false := by
    by_contra hx
    rw [Bool.not_eq_false] at hx
    have h1 : strStarts (backtick_stripped text) "`" = true := strStarts_three_one hx
    rw [backtick_stripped] at h1
    by_cases hs : strStarts (pyStrip text) "`"
    · rw [if_pos hs] at h1
      rw [strStarts, pyStripBackticks] at h1
      cases hd : stripWhile (fun c => c == '`') (pyStrip text).data with
      | nil =>
        rw [show (String.mk (stripWhile (fun c => c == '`') (pyStrip text).data)).data
            = stripWhile (fun c => c == '`') (pyStrip text).data from rfl, hd] at h1
        simp [List.isPrefixOf] at h1
      | cons c t =>
        rw [show (String.mk (stripWhile (fun c => c == '`') (pyStrip text).data)).data
            = stripWhile (fun c => c == '`') (pyStrip text).data from rfl, hd] at h1
        have hnb := stripWhile_head_false _ _ hd
        simp only [List.isPrefixOf, Bool.and_eq_true, beq_iff_eq] at h1
        rw [← h1.1] at hnb
        simp at hnb
    · rw [if_neg hs] at h1
      exact hs h1
  rw [fence_strip]
  simp only [h3, Bool.false_eq_true, if_false]

/-! ### Gate and flow lemmas -/

lemma show_safety_off {cfg : Config} (h : cfg.safety_confirm = false) (cmd : String) :
    show_safety cmd cfg = true := by
  simp [show_safety, h]

lemma show_safety_true_not_critical {cmd : String} {cfg : Config}
    (hcfg : cfg.safety_confirm = true) (h : show_safety cmd cfg = true) :
    (analyze_command cmd).level ≠ RiskLevel.critical := by
  intro hc
  rw [show_safety, hcfg] at h
  simp only [Bool.not_true, Bool.false_eq_true, if_false, hc] at h
  split at h
  · next heq => simp at heq
  · simp at h

lemma oneshot_trace_safety {text : String} {cfg : Config} {env : OneshotEnv} {dry : Bool}
    {c : String} (hc : c ∈ (_do_oneshot text cfg env dry).2) :
    show_safety c cfg = true := by
  rw [_do_oneshot] at hc
  by_cases hs : show_safety (oneshot_cmd text env.raw) cfg
  · rw [hs] at hc
    simp only [Bool.not_true, Bool.false_eq_true, if_false] at hc
    by_cases hd : dry
    · simp [hd] at hc
    · rw [if_neg hd] at hc
      by_cases hcf : confirm env.runAnswer true
      · rw [hcf] at hc
        simp only [Bool.not_true, Bool.false_eq_true, if_false, _run_command] at hc
        by_cases hb : pyBlank (oneshot_cmd text env.raw)
        · simp [hb] at hc
        · rw [if_neg hb] at hc
          simp only [List.mem_singleton] at hc
          rw [hc]
          exact hs
      · simp only [hcf, Bool.not_false, if_true] at hc
        simp at hc
  · simp only [Bool.not_eq_true] at hs
    rw [hs] at hc
    simp at hc

lemma plan_loop_trace_safety {cfg : Config} {auto dry : Bool} {runner : String → Int}
    {ans1 ans2 : Nat → Option String} :
    ∀ (steps : List Step) (i : Nat) (rcf : Int) (c : String),
      c ∈ (plan_loop cfg auto dry runner ans1 ans2 steps i rcf).2 →
      show_safety c cfg = true := by
  intro steps
  induction steps with
  | nil => intro i rcf c hc; simp [plan_loop] at hc
  | cons st rest ih =>
    intro i rcf c hc
    rw [plan_loop] at hc
    by_cases h1 : st.cmd == ""
    · rw [if_pos h1] at hc; exact ih _ _ _ hc
    · rw [if_neg h1] at hc
      by_cases h2 : dry
      · rw [if_pos h2] at hc; exact ih _ _ _ hc
      · rw [if_neg h2] at hc
        by_cases h3 : show_safety st.cmd cfg
        · rw [h3] at hc
          simp only [Bool.not_true, Bool.false_eq_true, if_false] at hc
          by_cases h4 : !auto && !confirm (ans1 i) true
          · rw [if_pos h4] at hc; exact ih _ _ _ hc
          · rw [if_neg h4] at hc
            simp only [_run_command] at hc
            by_cases hb : pyBlank st.cmd
            · rw [if_pos hb] at hc
              simp only at hc
              split at hc
              · simp at hc
              · simp only [List.nil_append] at hc; exact ih _ _ _ hc
            · rw [if_neg hb] at hc
              simp only at hc
              split at hc
              · simp only [List.mem_singleton] at hc; rw [hc]; exact h3
              · simp only [List.cons_append, List.nil_append, List.mem_cons] at hc
                rcases hc with hc | hc
                · rw [hc]; exact h3
                · exact ih _ _ _ hc
        · simp only [Bool.not_eq_true] at h3
          rw [h3] at hc
          simp only [Bool.not_false, if_true] at hc
          exact ih _ _ _ hc

lemma notblank_ne_empty {s : String} (h : pyBlank s = false) : (s == "") = false := by
  by_contra hx
  rw [Bool.not_eq_false, beq_iff_eq] at hx
  subst hx
  simp [pyBlank] at h

lemma plan_loop_rc {cfg : Config} {auto dry : Bool} {runner : String → Int}
    {ans1 ans2 : Nat → Option String} :
    ∀ (steps : List Step), (∀ st ∈ steps, pyBlank st.cmd = false) →
    ∀ (i : Nat) (rcf : Int),
      (plan_loop cfg auto dry runner ans1 ans2 steps i rcf).1
        = stickyFold ((plan_loop cfg auto dry runner ans1 ans2 steps i rcf).2.map runner) rcf := by
  intro steps
  induction steps with
  | nil => intro _ i rcf; simp [plan_loop, stickyFold]
  | cons st rest ih =>
    intro hnb i rcf
    have hstnb : pyBlank st.cmd = false := hnb st (List.mem_cons_self st rest)
    have hrest : ∀ s ∈ rest, pyBlank s.cmd = false :=
      fun s hs => hnb s (List.mem_cons_of_mem st hs)
    rw [plan_loop]
    rw [notblank_ne_empty hstnb]
    simp only [Bool.false_eq_true, if_false]
    by_cases h2 : dry
    · rw [if_pos h2]; exact ih hrest _ _
    · rw [if_neg h2]
      by_cases h3 : show_safety st.cmd cfg
      · rw [h3]
        simp only [Bool.not_true, Bool.false_eq_true, if_false]
        by_cases h4 : !auto && !confirm (ans1 i) true
        · rw [if_pos h4]; exact ih hrest _ _
        · rw [if_neg h4]
          simp only [_run_command, hstnb, Bool.false_eq_true, if_false]
          by_cases h5 : runner st.cmd != 0
          · simp only [h5, Bool.true_and, if_true]
            by_cases h6 : !auto && !confirm (ans2 i) false
            · rw [if_pos h6]
              simp only [List.map_cons, List.map_nil, stickyFold, List.foldl_cons,
                List.foldl_nil, h5, if_true]
            · rw [if_neg h6]
              simp only [List.singleton_append, List.map_cons, stickyFold, List.foldl_cons,
                h5, if_true]
              exact ih hrest _ _
          · simp only [h5, Bool.false_and, Bool.false_eq_true, if_false]
            simp only [List.singleton_append, List.map_cons, stickyFold, List.foldl_cons, h5,
              Bool.false_eq_true, if_false]
            exact ih hrest _ _
      · simp only [Bool.not_eq_true] at h3
        rw [h3]
        simp only [Bool.not_false, if_true]
        exact ih hrest _ _

lemma plan_loop_trace_auto {cfg : Config} {runner : String → Int}
    {ans1 ans2 : Nat → Option String} :
    ∀ (steps : List Step), (∀ st ∈ steps, pyBlank st.cmd = false) →
      (∀ st ∈ steps, show_safety st.cmd cfg = true) →
    ∀ (i : Nat) (rcf : Int),
      (plan_loop cfg true false runner ans1 ans2 steps i rcf).2
        = steps.map (fun st => st.cmd) := by
  intro steps
  induction steps with
  | nil => intro _ _ i rcf; simp [plan_loop]
  | cons st rest ih =>
    intro hnb hsafe i rcf
    have hstnb : pyBlank st.cmd = false := hnb st (List.mem_cons_self st rest)
    rw [plan_loop, notblank_ne_empty hstnb]
    simp only [Bool.false_eq_true, if_false, if_neg (by simp : ¬ (false = true))]
    rw [hsafe st (List.mem_cons_self st rest)]
    simp only [Bool.not_true, Bool.false_eq_true, if_false, Bool.not_true, Bool.false_and,
      if_neg (by simp : ¬ (false = true))]
    simp only [_run_command, hstnb, Bool.false_eq_true, if_false, Bool.and_false,
      Bool.false_eq_true, if_false]
    rw [ih (fun s hs => hnb s (List.mem_cons_of_mem st hs))
      (fun s hs => hsafe s (List.mem_cons_of_mem st hs)) (i + 1)
      (if runner st.cmd != 0 then runner st.cmd else rcf)]
    simp

/-! ### History bounds -/

lemma pySliceLast_len_le {α : Type} (l : List α) {L : Nat} (hL : L ≠ 0) :
    (pySliceLast l L).length ≤ L := by
  have h0 : (L == 0) = false := by simpa using hL
  rw [pySliceLast, h0]
  simp only [Bool.false_eq_true, if_false, List.length_drop]
  omega

lemma history_init_len_le {L : Nat} (hL : 1 ≤ L) (disk : List (Option HistoryEntry)) :
    (History.init L disk).entries.length ≤ L := by
  rw [History.init]
  calc ((pySliceLast disk L).filterMap id).length
      ≤ (pySliceLast disk L).length := List.length_filterMap_le id _
    _ ≤ L := pySliceLast_len_le disk (by omega)

lemma history_add_len_le {h : HistoryM} (hL : 1 ≤ h.limit)
    (hlen : h.entries.length ≤ h.limit) (e : HistoryEntry) :
    (h.add e).entries.length ≤ h.limit := by
  rw [HistoryM.add]
  by_cases hover : (h.entries ++ [e]).length > h.limit
  · simp only [hover, if_pos]
    exact pySliceLast_len_le _ (by omega)
  · simp only [hover, if_neg, if_false]
    omega

lemma history_add_limit (h : HistoryM) (e : HistoryEntry) : (h.add e).limit = h.limit := rfl

lemma history_addAll_len_le {L : Nat} (hL : 1 ≤ L) :
    ∀ (adds : List HistoryEntry) (h : HistoryM), h.limit = L → h.entries.length ≤ L →
      (h.addAll adds).entries.length ≤ L := by
  intro adds
  induction adds with
  | nil => intro h _ hlen; exact hlen
  | cons e es ih =>
    intro h hlim hlen
    rw [HistoryM.addAll, List.foldl_cons]
    refine ih (h.add e) (by rw [history_add_limit, hlim]) ?_
    have h1 : 1 ≤ h.limit := by omega
    have h2 : h.entries.length ≤ h.limit := by omega
    have h3 := history_add_len_le h1 h2 e
    omega

lemma history_add_suffix (h : HistoryM) (e : HistoryEntry) :
    (h.add e).entries <:+ (h.entries ++ [e]) := by
  rw [HistoryM.add]
  by_cases hover : (h.entries ++ [e]).length > h.limit
  · simp only [hover, if_pos]
    rw [pySliceLast]
    by_cases h0 : h.limit == 0
    · simp [h0]
    · simp only [h0, Bool.false_eq_true, if_false]
      exact List.drop_suffix _ _
  · simp only [hover, if_neg, if_false]
    exact List.suffix_refl _

lemma tagged_ne_nil {t : String} {l : List (RE × String)} (h : l.isEmpty = false) :
    tagged t l ≠ [] := by
  cases l with
  | nil => simp at h
  | cons a as => simp [tagged]

lemma spec_invariants (cmd : String) :
    (specLevel cmd ≠ RiskLevel.safe → specReasons cmd ≠ [])
    ∧ ((specSuggestion cmd).isSome
        = (specLevel cmd == RiskLevel.critical || specLevel cmd == RiskLevel.dangerous)) := by
  simp only [specSuggestion, specLevel, specReasons]
  rcases Bool.eq_false_or_eq_true ((matchedOf _CRITICAL_PATTERNS cmd).isEmpty) with hc | hc
  all_goals rcases Bool.eq_false_or_eq_true ((matchedOf _DANGEROUS_PATTERNS cmd).isEmpty)
    with hd | hd
  all_goals rcases Bool.eq_false_or_eq_true ((matchedOf _CAUTION_PATTERNS cmd).isEmpty)
    with hca | hca
  all_goals simp [hc, hd, hca, tagged]
  all_goals intro hnil
  all_goals first
    | (rw [hnil] at hc; simp at hc)
    | (rw [hnil] at hd; simp at hd)
    | (rw [hnil] at hca; simp at hca)

/-! ### The claims -/

/-- C1: with safety checks enabled, a command whose verdict is Critical
is never handed to the shell: under every oracle for the LLM reply, the
typed confirmations and the shell, every command in the execution trace
of the one-shot flow and of the plan flow has a non-Critical verdict
(so confirmation defaults never let a Critical command through); and
with the `--no-safety` override the gate passes unconditionally. -/
theorem critical_never_executed (cfg : Config) (hcfg : cfg.safety_confirm = true) :
    (∀ (text : String) (env : OneshotEnv) (dry : Bool) (c : String),
        c ∈ (_do_oneshot text cfg env dry).2 →
          (analyze_command c).level ≠ RiskLevel.critical)
    ∧ (∀ (steps : List Step) (auto dry : Bool) (runner : String → Int)
          (ans1 ans2 : Nat → Option String) (c : String),
        c ∈ (_do_plan cfg steps auto dry runner ans1 ans2).2 →
          (analyze_command c).level ≠ RiskLevel.critical)
    ∧ (∀ cfg2 : Config, cfg2.safety_confirm = false →
        ∀ cmd : String, show_safety cmd cfg2 = true) := by
  refine ⟨?_, ?_, ?_⟩
  · intro text env dry c hc
    exact show_safety_true_not_critical hcfg (oneshot_trace_safety hc)
  · intro steps auto dry runner ans1 ans2 c hc
    rw [_do_plan] at hc
    by_cases he : steps.isEmpty
    · rw [if_pos he] at hc; simp at hc
    · rw [if_neg he] at hc
      exact show_safety_true_not_critical hcfg (plan_loop_trace_safety steps 1 0 c hc)
  · intro cfg2 h2 cmd
    exact show_safety_off h2 cmd

/-- Witness for `critical_never_executed`: on a benign run the executed
command is not Critical, and the override disables the gate even for a
Critical command. -/
theorem critical_never_executed_witness :
    (analyze_command "ls -la").level ≠ RiskLevel.critical
    ∧ show_safety "rm -rf /home" ⟨false⟩ = true :=
  ⟨(critical_never_executed cfgOn rfl).1 "list files" envOk false "ls -la" (by decide),
   (critical_never_executed cfgOn rfl).2.2 ⟨false⟩ rfl "rm -rf /home"⟩

/-- C2 (code bug): the bare commands `rm -rf /` and `rm -rf ~` are
classified Dangerous, not Critical — the trailing `\b` of the critical
pattern has no word character to anchor on after the final `/` or `~` —
while a word character after the slash (`rm -rf /home`) does yield
Critical.  The repository's own tests assert Critical for both bare
commands. -/
theorem rm_rf_root_dangerous_not_critical :
    analyze_command "rm -rf /"
      = ⟨RiskLevel.dangerous, ["DANGER: Recursive or forced file deletion"],
         some "Consider adding --dry-run or --interactive flag first."⟩
    ∧ (analyze_command "rm -rf ~").level = RiskLevel.dangerous
    ∧ (analyze_command "rm -rf /home").level = RiskLevel.critical := by
  refine ⟨by decide, by decide, by decide⟩

/-- C3: for every command string the verdict's level is the highest
tier with a matching pattern, and the reasons are exactly one entry per
matching pattern of that tier, in pattern-declaration order, with the
tier prefix; no lower-tier reason appears once a higher tier matched. -/
theorem verdict_highest_tier (cmd : String) :
    (analyze_command cmd).level = specLevel cmd
    ∧ (analyze_command cmd).reasons = specReasons cmd := by
  rw [analyze_eq_spec]
  exact ⟨rfl, rfl⟩

/-- C4: the plan result equals the sticky fold of the executed steps'
exit codes starting from 0 — set on every non-zero code, never reset by
a later zero, the most recent non-zero winning — and in auto-mode
without dry-run, with every step passing the gate, the trace is exactly
the whole step list. -/
theorem plan_rc_sticky (cfg : Config) (steps : List Step) (auto dry : Bool)
    (runner : String → Int) (ans1 ans2 : Nat → Option String)
    (hne : steps ≠ []) (hnb : ∀ st ∈ steps, pyBlank st.cmd = false) :
    (_do_plan cfg steps auto dry runner ans1 ans2).1
      = stickyFold ((_do_plan cfg steps auto dry runner ans1 ans2).2.map runner) 0
    ∧ (auto = true → dry = false →
        (∀ st ∈ steps, show_safety st.cmd cfg = true) →
        (_do_plan cfg steps auto dry runner ans1 ans2).2 = steps.map (fun st => st.cmd)) := by
  have hie : steps.isEmpty = false := by
    cases steps
    · exact absurd rfl hne
    · rfl
  constructor
  · rw [_do_plan, hie]
    simp only [Bool.false_eq_true, if_false]
    exact plan_loop_rc steps hnb 1 0
  · intro ha hd hsafe
    subst ha; subst hd
    rw [_do_plan, hie]
    simp only [Bool.false_eq_true, if_false]
    exact plan_loop_trace_auto steps hnb hsafe 1 0

/-- Witness for `plan_rc_sticky`: the ok/fail/ok plan in auto-mode
executes all three steps and returns the failing step's exit code 2. -/
theorem plan_rc_sticky_witness :
    (_do_plan cfgOn demoSteps true false demoRunner demoAns demoAns).2
      = ["echo a", "boom", "echo b"]
    ∧ (_do_plan cfgOn demoSteps true false demoRunner demoAns demoAns).1 = 2 := by
  have h := plan_rc_sticky cfgOn demoSteps true false demoRunner demoAns demoAns
    (by decide) (by decide)
  have ht := h.2 rfl rfl (by decide)
  refine ⟨?_, ?_⟩
  · rw [ht]; decide
  · rw [h.1, ht]; decide

/-- C5 (amended): when JSON extraction fails (parse failure, non-dict
result, or missing field) and the fence-stripped text has no non-empty
line not starting with a brace, `_parse_json_field` returns the entire
fence-stripped text for *every* field — Command (`cmd`) exactly like
Explanation — and the separate plan parser returns an empty plan when
its JSON parse fails. -/
theorem parse_fallback_whole_text (text field ptext : String)
    (h1 : (jsonFieldOf (fence_strip text) field).isNone = true)
    (h2 : firstRecoveryLine (pySplitlines (fence_strip text)) = none)
    (h3 : (json_loads (pyStripBackticks (pyStrip ptext))).isNone = true) :
    _parse_json_field text field = fence_strip text
    ∧ _parse_plan ptext = ([], "") := by
  constructor
  · simp only [_parse_json_field, Option.isNone_iff_eq_none.mp h1, h2]
  · simp only [_parse_plan, Option.isNone_iff_eq_none.mp h3]

/-- Witness for `parse_fallback_whole_text` at the reply `\x7bbad`. -/
theorem parse_fallback_whole_text_witness :
    _parse_json_field bracedBad "cmd" = fence_strip bracedBad
    ∧ _parse_plan bracedBad = ([], "") :=
  parse_fallback_whole_text bracedBad "cmd" bracedBad (by decide) (by decide) (by decide)

/-- C5 counterexample: on the reply `\x7bbad` JSON parsing fails and no
recovery line exists, yet `_parse_cmd` returns the non-empty text
`\x7bbad` rather than the Empty result the claim asserts for the
Command kind. -/
theorem parse_cmd_not_empty_counterexample :
    (jsonFieldOf (fence_strip bracedBad) "cmd").isNone = true
    ∧ firstRecoveryLine (pySplitlines (fence_strip bracedBad)) = none
    ∧ _parse_cmd bracedBad ≠ "" := by
  refine ⟨by decide, by decide, by decide⟩

/-- C6 (amended): the backtick strip runs first and removes every
leading backtick, so the triple-fence branch never fires —
`fence_strip` coincides with the backtick strip on every input — and a
fenced JSON object with a language tag therefore parses to the
language-tag line, not to the `cmd` field. -/
theorem fence_branch_never_taken :
    (∀ text : String, fence_strip text = backtick_stripped text)
    ∧ _parse_cmd fencedExample = "json" :=
  ⟨fence_strip_eq_backtick_stripped, by decide⟩

/-- C6 counterexample: the fenced reply parses to `json` (the language
tag), not to the `cmd` field value `ls -la` the claim promises. -/
theorem fenced_json_yields_language_tag :
    _parse_cmd fencedExample ≠ "ls -la" ∧ _parse_cmd fencedExample = "json" := by
  refine ⟨by decide, by decide⟩

/-- C7 (amended): a declined confirmation executes nothing and returns
exit status 0 (a successful no-op); a Critical block without the
override also executes nothing but returns exit status 1. -/
theorem oneshot_no_execution_status (text : String) (cfg : Config) (env env2 : OneshotEnv)
    (hs : show_safety (oneshot_cmd text env.raw) cfg = true)
    (hc : confirm env.runAnswer true = false)
    (hb : show_safety (oneshot_cmd text env2.raw) cfg = false) :
    _do_oneshot text cfg env false = (0, [])
    ∧ _do_oneshot text cfg env2 false = (1, []) := by
  constructor
  · simp only [_do_oneshot, hs, hc]
    simp
  · simp only [_do_oneshot, hb]
    simp

/-- Witness for `oneshot_no_execution_status`: declining `ls -la`
returns `(0, [])`; a blocked `rm -rf /home` returns `(1, [])`. -/
theorem oneshot_no_execution_status_witness :
    _do_oneshot "list files" cfgOn envDecline false = (0, [])
    ∧ _do_oneshot "list files" cfgOn envCrit false = (1, []) :=
  oneshot_no_execution_status "list files" cfgOn envDecline envCrit
    (by decide) (by decide) (by decide)

/-- C7 counterexample: when the gate blocks a Critical command the
one-shot flow executes nothing but returns exit status 1 — not the
successful zero status the claim asserts for that case. -/
theorem blocked_oneshot_returns_one :
    (_do_oneshot "delete it all" cfgOn envCrit false).2 = []
    ∧ (_do_oneshot "delete it all" cfgOn envCrit false).1 ≠ 0 := by
  refine ⟨by decide, by decide⟩

/-- C8: the heuristic fallback (a pure function of its input string)
maps "list files" to the directory listing `ls -la`, "show free space"
to the disk-free `df -h`, and "find largest files" to a command
containing both the file-search token `find` and the size-filter token
`-size`. -/
theorem fallback_examples :
    fallback_command "list files" = "ls -la"
    ∧ fallback_command "show free space" = "df -h"
    ∧ fallback_command "find largest files"
        = "find . -type f -size +100M -print0 | xargs -0 ls -lh | sort -k5 -h | tail -n 20"
    ∧ pyIn "find" (fallback_command "find largest files") = true
    ∧ pyIn "-size" (fallback_command "find largest files") = true := by
  refine ⟨by decide, by decide, by decide, by decide, by decide⟩

/-- C9: a verdict whose level is not Safe always carries at least one
reason, and the suggestion is present exactly when the level is
Critical or Dangerous. -/
theorem verdict_reasons_and_suggestion (cmd : String) :
    ((analyze_command cmd).level ≠ RiskLevel.safe → (analyze_command cmd).reasons ≠ [])
    ∧ ((analyze_command cmd).suggestion.isSome
        = ((analyze_command cmd).level == RiskLevel.critical
            || (analyze_command cmd).level == RiskLevel.dangerous)) := by
  rw [analyze_eq_spec]
  exact spec_invariants cmd

/-- Witness for `verdict_reasons_and_suggestion` on a Caution command. -/
theorem verdict_reasons_and_suggestion_witness :
    (analyze_command "sudo apt update").reasons ≠ [] :=
  (verdict_reasons_and_suggestion "sudo apt update").1 (by decide)

/-- C10 (amended): for every limit L ≥ 1, after loading from disk and
after any sequence of adds the in-memory list holds at most L entries;
an overflowing add keeps a suffix of the appended list, i.e. the oldest
entries are discarded first. -/
theorem history_bounded (L : Nat) (hL : 1 ≤ L) (disk : List (Option HistoryEntry))
    (adds : List HistoryEntry) :
    ((History.init L disk).addAll adds).entries.length ≤ L
    ∧ ∀ (h : HistoryM) (e : HistoryEntry), (h.add e).entries <:+ (h.entries ++ [e]) := by
  constructor
  · exact history_addAll_len_le hL adds (History.init L disk) rfl (history_init_len_le hL disk)
  · exact history_add_suffix

/-- Witness for `history_bounded` at limit 2 with three adds over a
three-line disk file (one line undecodable). -/
theorem history_bounded_witness :
    ((History.init 2 [some eDemo, none, some eDemo2]).addAll
      [eDemo, eDemo2, eDemo]).entries.length ≤ 2 :=
  (history_bounded 2 (by decide) [some eDemo, none, some eDemo2] [eDemo, eDemo2, eDemo]).1

/-- C10 counterexample: with limit 0 Python's `lines[-0:]` slice keeps
every line, so a one-line history file loads into one in-memory entry —
more than the limit 0 the claim allows. -/
theorem history_limit_zero_violated :
    ¬ ((History.init 0 [some eDemo]).entries.length ≤ 0) := by decide
